import Mathlib

/-!
Verification of the FIFO-QUEUE analysis scripts.

This file shallowly embeds the log-parsing, metrics-aggregation, scenario
matching and report-rendering logic of the repository's Python scripts
(`scripts/analyze_performance.py`, `scripts/check_coverage.py`,
`scripts/analyze_synthesis.py`, `scripts/synthesis_summary.py`,
`scripts/plot_results.py`) and proves properties of that embedding.

Modelling conventions:
- Python text is modelled as `List Char` (ASCII scope; the logs handled by the
  scripts are ASCII).  Regular-expression searches are embedded as explicit
  left-to-right scanners that reproduce the behaviour of the concrete patterns
  used by the scripts (each pattern is simple enough that greedy matching with
  the required backtracking reduces to maximal-run scanning).
- Python's unbounded non-negative integers (regex `\d+` captures, counts and
  lengths) are `Nat`; Python floats are modelled exactly by `ℚ` (every claim
  under study depends only on values that are exact in this model).
- A Python function that can raise an exception is embedded with an `Option`
  result: `none` models the raised exception.
- A file argument is `Option (List Char)`: `none` models a missing file.
  Where a function's observable behaviour includes printing a warning for a
  missing file, the embedded function additionally returns a `Bool` that is
  `true` exactly when the warning is printed.
-/

namespace FifoScripts

/-- Characters matched by Python's `\s` (ASCII range). -/
def pyIsSpace (c : Char) : Bool :=
  c = ' ' || c = '\t' || c = '\n' || c = '\r' || c = '\x0b' || c = '\x0c'

/-- Decimal value of a digit string, as produced by Python `int` on a `\d+` capture. -/
def natOfDigits (l : List Char) : Nat :=
  l.foldl (fun a c => a * 10 + (c.toNat - 48)) 0

/-- If `pat` is a prefix of `l`, drop it and return the remainder. -/
def dropLit : List Char → List Char → Option (List Char)
  | [], l => some l
  | _ :: _, [] => none
  | p :: ps, c :: cs => if c = p then dropLit ps cs else none

/-- Left-to-right scan of every start position, returning the first successful
match attempt; this is how `re.search` selects the leftmost match. -/
def searchBy {α : Type} (f : List Char → Option α) : List Char → Option α
  | [] => f []
  | c :: t =>
    match f (c :: t) with
    | some a => some a
    | none => searchBy f t

/-- Match `<lit>\s*(\d+)` at the head of `l` (the shape of the
`Total Writes:`/`Total Reads:`/`Passed:`/`Failed:` patterns). -/
def matchNatAt (pat : List Char) (l : List Char) : Option Nat :=
  match dropLit pat l with
  | none => none
  | some r =>
    let r2 := r.dropWhile pyIsSpace
    let ds := r2.takeWhile Char.isDigit
    if ds = [] then none else some (natOfDigits ds)

def writesPat : List Char := "Total Writes:".data
def readsPat : List Char := "Total Reads:".data
def peakPat : List Char := "Peak Occupancy:".data
def tputPat : List Char := "Throughput:".data
def ratePat : List Char := "Success Rate:".data
def passedPat : List Char := "Passed:".data
def failedPat : List Char := "Failed:".data

/-- Match `Peak Occupancy:\s*(\d+)/(\d+)` at the head of `l`. -/
def matchPeakAt (l : List Char) : Option (Nat × Nat) :=
  match dropLit peakPat l with
  | none => none
  | some r =>
    let r2 := r.dropWhile pyIsSpace
    let d1 := r2.takeWhile Char.isDigit
    if d1 = [] then none
    else
      match r2.drop d1.length with
      | [] => none
      | c :: r3 =>
        if c = '/' then
          let d2 := r3.takeWhile Char.isDigit
          if d2 = [] then none else some (natOfDigits d1, natOfDigits d2)
        else none

/-- Match `Throughput:\s*([\d.]+)\s*MB/s` at the head of `l`, returning the
raw captured `[\d.]+` run (conversion to a number happens separately, since
Python's `float` can reject the captured text). -/
def matchTputAt (l : List Char) : Option (List Char) :=
  match dropLit tputPat l with
  | none => none
  | some r =>
    let r2 := r.dropWhile pyIsSpace
    let run := r2.takeWhile (fun c => c.isDigit || c = '.')
    if run = [] then none
    else
      match dropLit "MB/s".data ((r2.drop run.length).dropWhile pyIsSpace) with
      | some _ => some run
      | none => none

/-- Match `Success Rate:\s*(\d+)%` at the head of `l`. -/
def matchRateAt (l : List Char) : Option Nat :=
  match dropLit ratePat l with
  | none => none
  | some r =>
    let r2 := r.dropWhile pyIsSpace
    let ds := r2.takeWhile Char.isDigit
    if ds = [] then none
    else
      match r2.drop ds.length with
      | [] => none
      | c :: _ => if c = '%' then some (natOfDigits ds) else none

def searchNat (pat : List Char) (l : List Char) : Option Nat :=
  searchBy (matchNatAt pat) l

def searchPeak (l : List Char) : Option (Nat × Nat) :=
  searchBy matchPeakAt l

def searchTput (l : List Char) : Option (List Char) :=
  searchBy matchTputAt l

def searchRate (l : List Char) : Option Nat :=
  searchBy matchRateAt l

/-- Python `float` applied to a `[\d.]+` capture: rejects the text (raises
`ValueError`, modelled by `none`) unless it has at most one dot and at least
one digit. -/
def pyFloat (run : List Char) : Option ℚ :=
  if run.count '.' ≤ 1 && run.any Char.isDigit then
    let ip := run.takeWhile Char.isDigit
    let rest := run.dropWhile Char.isDigit
    match rest with
    | [] => some (natOfDigits ip)
    | _ :: fp => some ((natOfDigits ip : ℚ) + (natOfDigits fp : ℚ) / (10 : ℚ) ^ fp.length)
  else none

/-- Python `str.lower()` (ASCII case folding, matching `Char.toLower`). -/
def pyLower (s : String) : String :=
  String.mk (s.data.map Char.toLower)

/-- Python `str.strip()`. -/
def pyStrip (l : List Char) : List Char :=
  ((l.dropWhile pyIsSpace).reverse.dropWhile pyIsSpace).reverse

/-- Lazy tail of the test-result pattern `(.+?)\.+ (PASS|FAIL)`: `acc` holds the
(reversed) name captured so far (at least one character), `rest` is the
remaining text.  At each step the engine first tries to finish the match with
the shortest name (lazy `.+?`), extending the name by one non-newline character
on failure. -/
def nameTail : List Char → List Char → Option (List Char × Bool × List Char)
  | _, [] => none
  | acc, c :: t =>
    let dots := (c :: t).takeWhile (fun x => x = '.')
    let afterDots := (c :: t).drop dots.length
    let fin : Option (List Char × Bool × List Char) :=
      if dots = [] then none
      else
        match dropLit " PASS".data afterDots with
        | some rem => some (acc.reverse, true, rem)
        | none =>
          match dropLit " FAIL".data afterDots with
          | some rem => some (acc.reverse, false, rem)
          | none => none
    match fin with
    | some res => some res
    | none => if c = '\n' then none else nameTail (c :: acc) t

/-- Attempt to match `\[TEST (\d+)\] (.+?)\.+ (PASS|FAIL)` at the head of `l`,
returning the stripped name, the PASS flag and the remainder of the text after
the match. -/
def matchTestAt (l : List Char) : Option ((String × Bool) × List Char) :=
  match dropLit "[TEST ".data l with
  | none => none
  | some r =>
    let ds := r.takeWhile Char.isDigit
    if ds = [] then none
    else
      match dropLit "] ".data (r.drop ds.length) with
      | none => none
      | some r2 =>
        match r2 with
        | [] => none
        | c :: t =>
          if c = '\n' then none
          else
            match nameTail [c] t with
            | none => none
            | some (nm, p, rem) => some ((String.mk (pyStrip nm), p), rem)

/-- Non-overlapping left-to-right scan (`re.finditer`): emit the leftmost match,
continue after its end; the fuel bounds the scan by the text length. -/
def findTestsAux : Nat → List Char → List (String × Bool)
  | 0, _ => []
  | n + 1, l =>
    match matchTestAt l with
    | some (r, rem) => r :: findTestsAux n rem
    | none =>
      match l with
      | [] => []
      | _ :: t => findTestsAux n t

/-- All `[TEST n] name.... PASS|FAIL` matches of a log text, in document order. -/
def findTests (l : List Char) : List (String × Bool) :=
  findTestsAux l.length l

/-- `TestResult` dataclass of `analyze_performance.py`. -/
structure TestResult where
  name : String
  passed : Bool
  details : String
  deriving DecidableEq

/-- `PerformanceMetrics` dataclass of `analyze_performance.py`; defaults are
all-zero with `fifo_depth = 16`. -/
structure PerformanceMetrics where
  total_writes : Nat
  total_reads : Nat
  peak_occupancy : Nat
  fifo_depth : Nat
  throughput_mbps : ℚ
  success_rate : ℚ
  deriving DecidableEq

def defaultMetrics : PerformanceMetrics := ⟨0, 0, 0, 16, 0, 0⟩

def testsOf (l : List Char) : List TestResult :=
  (findTests l).map fun r => ⟨r.1, r.2, ""⟩

/-- Metrics record built by `parse_sync_log` from the field searches, given the
already-converted throughput value `q`. -/
def mkMetrics (l : List Char) (q : ℚ) : PerformanceMetrics :=
  ⟨(searchNat writesPat l).getD 0,
   (searchNat readsPat l).getD 0,
   ((searchPeak l).map Prod.fst).getD 0,
   ((searchPeak l).map Prod.snd).getD 16,
   q,
   ((searchRate l).map (fun n => (n : ℚ))).getD 0⟩

/-- Body of `parse_sync_log` on an existing file's content: extract the test
results and the metric fields; `none` models the `ValueError` raised by
`float` on a malformed throughput capture. -/
def parseSyncText (l : List Char) : Option (List TestResult × PerformanceMetrics) :=
  match searchTput l with
  | none => some (testsOf l, mkMetrics l 0)
  | some run =>
    match pyFloat run with
    | none => none
    | some q => some (testsOf l, mkMetrics l q)

/-- `parse_sync_log` (also `parse_async_log`, which delegates to it).  The file
argument is `none` when the log file does not exist; the `Bool` in the result
is `true` exactly when the "Log file not found" warning is printed. -/
def parse_sync_log (file : Option (List Char)) :
    Option (List TestResult × PerformanceMetrics × Bool) :=
  match file with
  | none => some ([], defaultMetrics, true)
  | some l => (parseSyncText l).map fun r => (r.1, r.2, false)

/-- Metrics dictionary of `plot_results.parse_metrics`. -/
structure PlotMetrics where
  total_writes : Nat
  total_reads : Nat
  peak_occupancy : Nat
  fifo_depth : Nat
  throughput : ℚ
  tests_passed : Nat
  tests_failed : Nat
  deriving DecidableEq

def defaultPlotMetrics : PlotMetrics := ⟨0, 0, 0, 16, 0, 0, 0⟩

/-- Body of `plot_results.parse_metrics` on an existing file's content.  The
throughput capture is converted with `float` only when it contains a dot
(`float(g) if '.' in g else int(g)`); `none` models the `ValueError` case. -/
def parseMetricsText (l : List Char) : Option PlotMetrics :=
  let w := (searchNat writesPat l).getD 0
  let rd := (searchNat readsPat l).getD 0
  let tp := (searchNat passedPat l).getD 0
  let tf := (searchNat failedPat l).getD 0
  let pk := ((searchPeak l).map Prod.fst).getD 0
  let dp := ((searchPeak l).map Prod.snd).getD 16
  match searchTput l with
  | none => some ⟨w, rd, pk, dp, 0, tp, tf⟩
  | some run =>
    if run.contains '.' then (pyFloat run).map fun q => ⟨w, rd, pk, dp, q, tp, tf⟩
    else some ⟨w, rd, pk, dp, (natOfDigits run : ℚ), tp, tf⟩

/-- `plot_results.parse_metrics`.  On a missing file it returns the default
dictionary; the `Bool` is `true` exactly when a missing-file warning is
printed (this function prints none). -/
def parse_metrics (file : Option (List Char)) : Option (PlotMetrics × Bool) :=
  match file with
  | none => some (defaultPlotMetrics, false)
  | some l => (parseMetricsText l).map fun m => (m, false)

/-! Report rendering (`generate_report` of `analyze_performance.py`). -/

/-- `peak_occupancy*100//fifo_depth` as written on line 143; `none` models the
`ZeroDivisionError` raised when `fifo_depth = 0` (there is no guard in the
source). -/
def occupancyPct (m : PerformanceMetrics) : Option Nat :=
  if m.fifo_depth = 0 then none else some (m.peak_occupancy * 100 / m.fifo_depth)

/-- Two-decimal rendering of the throughput float (`{x:.2f}`); no claim under
study depends on these digits. -/
def fmt2 (q : ℚ) : String :=
  let n := (⌊q * 100 + 1 / 2⌋).toNat
  Nat.repr (n / 100) ++ "." ++ (if n % 100 < 10 then "0" else "") ++ Nat.repr (n % 100)

def metricsHeader : List Char := "Performance Metrics:".data

def writesLine (n : Nat) : List Char :=
  "  Total Writes:    ".data ++ (Nat.repr n).data

def readsLine (n : Nat) : List Char :=
  "  Total Reads:     ".data ++ (Nat.repr n).data

def peakLine (p d pct : Nat) : List Char :=
  "  Peak Occupancy:  ".data ++ (Nat.repr p).data ++ "/".data ++ (Nat.repr d).data
    ++ " (".data ++ (Nat.repr pct).data ++ "%)".data

def tputLine (q : ℚ) : List Char :=
  "  Throughput:      ".data ++ (fmt2 q).data ++ " MB/s".data

/-- Lines appended for the synchronous metrics block (lines 137–145): rendered
only when `total_writes > 0`, and the Peak Occupancy line divides by
`fifo_depth` (`none` models the raised `ZeroDivisionError`). -/
def syncMetricsLines (m : PerformanceMetrics) : Option (List (List Char)) :=
  if 0 < m.total_writes then
    match occupancyPct m with
    | none => none
    | some pct =>
      some ([[], metricsHeader, writesLine m.total_writes, readsLine m.total_reads,
             peakLine m.peak_occupancy m.fifo_depth pct]
            ++ (if 0 < m.throughput_mbps then [tputLine m.throughput_mbps] else []))
  else some []

/-- Lines appended for the asynchronous metrics block (lines 165–171): same
gate, but no Peak Occupancy line. -/
def asyncMetricsLines (m : PerformanceMetrics) : List (List Char) :=
  if 0 < m.total_writes then
    [[], metricsHeader, writesLine m.total_writes, readsLine m.total_reads]
      ++ (if 0 < m.throughput_mbps then [tputLine m.throughput_mbps] else [])
  else []

def countPassed (ts : List TestResult) : Nat :=
  (ts.filter (fun t => t.passed)).length

/-- Overall status line of `generate_report` (lines 196–207): `all_passed` is
tested first, then the both-empty case. -/
def overallStatus (syncTests asyncTests : List TestResult) : String :=
  if countPassed syncTests = syncTests.length ∧ countPassed asyncTests = asyncTests.length
      ∧ 0 < syncTests.length ∧ 0 < asyncTests.length then "ALL TESTS PASSED"
  else if syncTests.length = 0 ∧ asyncTests.length = 0 then "NO SIMULATION DATA FOUND"
  else "SOME TESTS FAILED"

/-- Percentage of the per-dataset summary line (line 135), only rendered when
the test list is non-empty. -/
def summaryPct (ts : List TestResult) : Option Nat :=
  if ts.isEmpty then none else some (countPassed ts * 100 / ts.length)

/-- Guarded pass-rate expression of `check_coverage.generate_coverage_report`
(lines 204–207): `x*100//total if total > 0 else 0`. -/
def passRate (passed total : Nat) : Nat :=
  if 0 < total then passed * 100 / total else 0

/-! Scenario matching (`check_coverage.py`). -/

/-- `TestScenario` dataclass of `check_coverage.py`. -/
structure TestScenario where
  name : String
  category : String
  description : String
  executed : Bool
  passed : Bool
  deriving DecidableEq

/-- `dict.__setitem__`: update the value at an existing key in place, else
append the new binding (insertion order is preserved). -/
def insertKey : List (String × Bool) → String → Bool → List (String × Bool)
  | [], k, v => [(k, v)]
  | (k1, v1) :: t, k, v =>
    if k1 = k then (k1, v) :: t else (k1, v1) :: insertKey t k v

/-- The `executed_tests` dictionary: execution results keyed by the case-folded
name (`executed_tests[test_name.lower()] = passed`). -/
def buildExecuted (rs : List (String × Bool)) : List (String × Bool) :=
  rs.foldl (fun m r => insertKey m (pyLower r.1) r.2) []

/-- `dict` lookup on the insertion-ordered association list. -/
def lookupKey : List (String × Bool) → String → Option Bool
  | [], _ => none
  | (k1, v) :: t, k => if k1 = k then some v else lookupKey t k

/-- `str.replace` (all non-overlapping occurrences, left to right), with fuel
bounded by the text length. -/
def replAux : Nat → List Char → List Char → List Char → List Char
  | 0, _, _, l => l
  | n + 1, pat, sub, l =>
    if pat ≠ [] ∧ pat.isPrefixOf l then sub ++ replAux n pat sub (l.drop pat.length)
    else
      match l with
      | [] => []
      | c :: t => c :: replAux n pat sub t

def pyReplace (l pat sub : List Char) : List Char :=
  replAux l.length pat sub l

/-- `test.name.replace('test_', '').replace('_', ' ')` — note: not case-folded. -/
def normName (s : String) : String :=
  String.mk (pyReplace (pyReplace s.data "test_".data "".data) "_".data " ".data)

/-- Substring containment on character lists (Python's `in` on strings). -/
def isSubstr : List Char → List Char → Bool
  | pat, [] => pat.isEmpty
  | pat, c :: t => pat.isPrefixOf (c :: t) || isSubstr pat t

/-- The fallback condition of `check_test_execution` (lines 96–97): the
normalized catalog name is a substring of the (case-folded) key, or vice
versa; Python's `in` on strings is substring containment. -/
def fallbackHit (catalogNorm key : String) : Bool :=
  isSubstr catalogNorm.data key.data || isSubstr key.data catalogNorm.data

/-- Per-scenario body of the update loop of `check_test_execution` (lines
87–100): exact case-folded lookup of the description first, then the first
fallback hit in dictionary iteration order, else unchanged. -/
def matchScenario (executed : List (String × Bool)) (t : TestScenario) : TestScenario :=
  match lookupKey executed (pyLower t.description) with
  | some p => { t with executed := true, passed := p }
  | none =>
    match executed.find? (fun r => fallbackHit (normName t.name) r.1) with
    | some r => { t with executed := true, passed := r.2 }
    | none => t

/-- `check_test_execution` after the `executed_tests` dictionary has been built. -/
def check_test_execution (executed : List (String × Bool)) (tests : List TestScenario) :
    List TestScenario :=
  tests.map (matchScenario executed)

/-! Synthesis resource classification (`analyze_synthesis.count_resources`). -/

/-- Python's `in` on strings: substring containment. -/
def containsStr (hay pat : String) : Bool :=
  isSubstr pat.data hay.data

/-- `'DFF' in cell_type or 'FF' in cell_type`. -/
def isFFCell (c : String) : Bool :=
  containsStr c "DFF" || containsStr c "FF"

/-- `'MUX' in cell_type`. -/
def isMuxCell (c : String) : Bool :=
  containsStr c "MUX"

/-- `any(x in cell_type for x in ['LUT','AND','OR','XOR','NOT','NAND','NOR'])`. -/
def isLogicCell (c : String) : Bool :=
  containsStr c "LUT" || containsStr c "AND" || containsStr c "OR" || containsStr c "XOR"
    || containsStr c "NOT" || containsStr c "NAND" || containsStr c "NOR"

/-- `ResourceSummary` accumulator of `count_resources`. -/
structure ResourceSummary where
  logic_cells : Nat
  flip_flops : Nat
  muxes : Nat
  memory_bits : Nat
  total_cells : Nat
  deriving DecidableEq

/-- One iteration of the `count_resources` loop over `results['cells'].items()`. -/
def crStep (r : ResourceSummary) (p : String × Nat) : ResourceSummary :=
  ⟨r.logic_cells + (if isLogicCell p.1 then p.2 else 0),
   r.flip_flops + (if isFFCell p.1 then p.2 else 0),
   r.muxes + (if isMuxCell p.1 then p.2 else 0),
   r.memory_bits,
   r.total_cells + p.2⟩

/-- `count_resources` over the cells mapping (as an insertion-ordered list of
`(cell type, count)` pairs). -/
def count_resources (cells : List (String × Nat)) : ResourceSummary :=
  cells.foldl crStep ⟨0, 0, 0, 0, 0⟩

def sumCounts (cells : List (String × Nat)) : Nat :=
  (cells.map (fun p => p.2)).sum

/-- `diff_pct = (diff / sync_val * 100) if sync_val > 0 else 0`, as written in
`analyze_synthesis.main` and `synthesis_summary.print_row`; `other` is the
async value and `base` the sync (baseline) value. -/
def percentDifference (other base : Nat) : ℚ :=
  if 0 < base then (((other : ℚ) - (base : ℚ)) / (base : ℚ)) * 100 else 0

/-! ### Helper lemmas -/

theorem natDivBounds (a t : Nat) (ht : 0 < t) : a / t * t ≤ a ∧ a < (a / t + 1) * t := by
  refine ⟨Nat.div_mul_le_self a t, ?_⟩
  have h1 : a / t * t + a % t = a := Nat.div_add_mod' a t
  have h2 : a % t < t := Nat.mod_lt _ ht
  calc a = a / t * t + a % t := h1.symm
  _ < a / t * t + t := by omega
  _ = (a / t + 1) * t := by ring

theorem countPassed_le (l : List TestResult) : countPassed l ≤ l.length :=
  List.length_filter_le _ _

theorem countPassed_cons (x : TestResult) (xs : List TestResult) :
    countPassed (x :: xs) = (if x.passed then 1 else 0) + countPassed xs := by
  by_cases hx : x.passed <;> simp [countPassed, List.filter_cons, hx, Nat.add_comm]

theorem countPassed_eq_length_iff (l : List TestResult) :
    countPassed l = l.length ↔ ∀ t ∈ l, t.passed = true := by
  induction l with
  | nil => simp [countPassed]
  | cons x xs ih =>
    have hle := countPassed_le xs
    rw [countPassed_cons, List.length_cons]
    by_cases hx : x.passed
    · rw [if_pos hx]
      constructor
      · intro h t ht
        rcases List.mem_cons.mp ht with rfl | ht
        · exact hx
        · exact (ih.mp (by omega)) t ht
      · intro h
        have : countPassed xs = xs.length :=
          ih.mpr fun t ht => h t (List.mem_cons.mpr (Or.inr ht))
        omega
    · rw [if_neg hx]
      constructor
      · intro h; exfalso; omega
      · intro h
        exact absurd (h x (List.mem_cons_self x xs)) (by simpa using hx)

theorem isPrefixOf_append_of_le (p a b : List Char) (h : p.length ≤ a.length) :
    p.isPrefixOf (a ++ b) = p.isPrefixOf a := by
  induction p generalizing a with
  | nil => simp [List.isPrefixOf]
  | cons c cs ih =>
    cases a with
    | nil => simp at h
    | cons d ds =>
      simp only [List.cons_append, List.isPrefixOf, List.append_eq]
      rw [ih ds (by simpa using h)]

theorem isPrefixOf_eq_true_iff (p l : List Char) :
    p.isPrefixOf l = true ↔ ∃ t, l = p ++ t := by
  induction p generalizing l with
  | nil => simp [List.isPrefixOf]
  | cons c cs ih =>
    cases l with
    | nil => simp [List.isPrefixOf]
    | cons d ds =>
      simp only [List.isPrefixOf, Bool.and_eq_true, beq_iff_eq, ih, List.cons_append,
        List.cons.injEq]
      constructor
      · rintro ⟨rfl, t, rfl⟩; exact ⟨t, rfl, rfl⟩
      · rintro ⟨t, rfl, rfl⟩; exact ⟨rfl, t, rfl⟩

theorem isSubstr_iff (pat hay : List Char) :
    isSubstr pat hay = true ↔ ∃ l1 l2, hay = l1 ++ (pat ++ l2) := by
  induction hay with
  | nil =>
    simp only [isSubstr, List.isEmpty_iff]
    constructor
    · rintro rfl; exact ⟨[], [], rfl⟩
    · rintro ⟨l1, l2, h⟩
      rcases List.append_eq_nil.mp h.symm with ⟨rfl, h2⟩
      rcases List.append_eq_nil.mp h2 with ⟨rfl, rfl⟩
      rfl
  | cons c t ih =>
    simp only [isSubstr, Bool.or_eq_true, isPrefixOf_eq_true_iff, ih]
    constructor
    · rintro (⟨s, hs⟩ | ⟨l1, l2, hl⟩)
      · exact ⟨[], s, by simpa using hs⟩
      · exact ⟨c :: l1, l2, by simp [hl]⟩
    · rintro ⟨l1, l2, h⟩
      cases l1 with
      | nil => exact Or.inl ⟨l2, by simpa using h⟩
      | cons x xs =>
        rw [List.cons_append] at h
        simp only [List.cons.injEq] at h
        exact Or.inr ⟨xs, l2, h.2⟩

theorem find?_pre_none {α : Type} (p : α → Bool) (pre : List α) (r : α) (suf : List α)
    (hpre : ∀ x ∈ pre, p x = false) (hr : p r = true) :
    (pre ++ r :: suf).find? p = some r := by
  induction pre with
  | nil =>
    rw [List.nil_append, List.find?_cons_of_pos _ hr]
  | cons x xs ih =>
    have hx := hpre x (List.mem_cons_self x xs)
    rw [List.cons_append, List.find?_cons_of_neg _ (by simp [hx])]
    exact ih fun y hy => hpre y (List.mem_cons.mpr (Or.inr hy))

theorem lookupKey_insertKey (ms : List (String × Bool)) (k : String) (v : Bool)
    (k' : String) :
    lookupKey (insertKey ms k v) k' = if k' = k then some v else lookupKey ms k' := by
  induction ms with
  | nil =>
    simp only [insertKey, lookupKey]
    by_cases h : k' = k
    · rw [if_pos h.symm, if_pos h]
    · rw [if_neg (fun hh => h hh.symm), if_neg h]
  | cons p ps ih =>
    obtain ⟨k1, v1⟩ := p
    simp only [insertKey]
    by_cases h1 : k1 = k
    · rw [if_pos h1]
      simp only [lookupKey]
      by_cases h2 : k1 = k'
      · rw [if_pos h2, if_pos (h2.symm.trans h1)]
      · rw [if_neg h2, if_neg (fun hh : k' = k => h2 (h1.trans hh.symm)), if_neg h2]
    · rw [if_neg h1]
      simp only [lookupKey]
      by_cases h2 : k1 = k'
      · rw [if_pos h2, if_pos h2, if_neg (fun hh : k' = k => h1 (h2.trans hh))]
      · rw [if_neg h2, ih, if_neg h2]

theorem build_lookup_aux (rs : List (String × Bool)) (acc : List (String × Bool))
    (k : String) :
    lookupKey (rs.foldl (fun m r => insertKey m (pyLower r.1) r.2) acc) k =
      rs.foldl (fun o r => if (pyLower r.1) = k then some r.2 else o) (lookupKey acc k) := by
  induction rs generalizing acc with
  | nil => rfl
  | cons r t ih =>
    simp only [List.foldl_cons]
    rw [ih]
    congr 1
    rw [lookupKey_insertKey]
    by_cases h : (pyLower r.1) = k
    · rw [if_pos h.symm, if_pos h]
    · rw [if_neg (fun hh => h hh.symm), if_neg h]

theorem foldl_last_none (k : String) (l : List (String × Bool)) (o : Option Bool)
    (h : ∀ x ∈ l, (pyLower x.1) ≠ k) :
    l.foldl (fun o r => if (pyLower r.1) = k then some r.2 else o) o = o := by
  induction l generalizing o with
  | nil => rfl
  | cons x xs ih =>
    simp only [List.foldl_cons]
    rw [if_neg (h x (List.mem_cons_self x xs))]
    exact ih o fun y hy => h y (List.mem_cons.mpr (Or.inr hy))

theorem insertKey_keys (ms : List (String × Bool)) (k : String) (v : Bool) :
    (insertKey ms k v).map Prod.fst =
      if k ∈ ms.map Prod.fst then ms.map Prod.fst else ms.map Prod.fst ++ [k] := by
  induction ms with
  | nil => simp [insertKey]
  | cons p ps ih =>
    obtain ⟨k1, v1⟩ := p
    simp only [insertKey, List.map_cons, List.mem_cons]
    by_cases h1 : k1 = k
    · rw [if_pos h1]
      rw [if_pos (Or.inl h1.symm)]
      simp
    · rw [if_neg h1]
      by_cases hm : k ∈ ps.map Prod.fst
      · rw [if_pos (Or.inr hm)]
        simp only [List.map_cons, ih, if_pos hm]
      · rw [if_neg (by rintro (h | h); exact h1 h.symm; exact hm h)]
        simp only [List.map_cons, ih, if_neg hm, List.cons_append]

theorem build_keys_nodup (rs : List (String × Bool)) :
    ((buildExecuted rs).map Prod.fst).Nodup := by
  suffices h : ∀ acc : List (String × Bool), (acc.map Prod.fst).Nodup →
      ((rs.foldl (fun m r => insertKey m (pyLower r.1) r.2) acc).map Prod.fst).Nodup from
    h [] (by simp)
  induction rs with
  | nil => intro acc h; exact h
  | cons r t ih =>
    intro acc h
    simp only [List.foldl_cons]
    apply ih
    rw [insertKey_keys]
    by_cases hm : (pyLower r.1) ∈ acc.map Prod.fst
    · rw [if_pos hm]; exact h
    · rw [if_neg hm]
      exact h.append (List.nodup_singleton _)
        (fun x hx hx2 => hm (List.mem_singleton.mp hx2 ▸ hx))

theorem count_resources_foldl (cells : List (String × Nat)) (r0 : ResourceSummary) :
    (cells.foldl crStep r0).flip_flops
        = r0.flip_flops + sumCounts (cells.filter fun p => isFFCell p.1) ∧
    (cells.foldl crStep r0).muxes
        = r0.muxes + sumCounts (cells.filter fun p => isMuxCell p.1) ∧
    (cells.foldl crStep r0).logic_cells
        = r0.logic_cells + sumCounts (cells.filter fun p => isLogicCell p.1) ∧
    (cells.foldl crStep r0).total_cells = r0.total_cells + sumCounts cells := by
  induction cells generalizing r0 with
  | nil => simp [sumCounts]
  | cons p ps ih =>
    simp only [List.foldl_cons, List.filter_cons]
    obtain ⟨h1, h2, h3, h4⟩ := ih (crStep r0 p)
    refine ⟨?_, ?_, ?_, ?_⟩
    · rw [h1]
      by_cases hp : isFFCell p.1 <;> (simp [crStep, sumCounts, hp]; try omega)
    · rw [h2]
      by_cases hp : isMuxCell p.1 <;> (simp [crStep, sumCounts, hp]; try omega)
    · rw [h3]
      by_cases hp : isLogicCell p.1 <;> (simp [crStep, sumCounts, hp]; try omega)
    · rw [h4]
      simp [crStep, sumCounts]
      omega

theorem parseSyncText_eq (l : List Char) (ts : List TestResult) (m : PerformanceMetrics)
    (h : parseSyncText l = some (ts, m)) :
    ∃ q : ℚ, m = mkMetrics l q ∧ ts = testsOf l ∧ (searchTput l = none → q = 0) := by
  unfold parseSyncText at h
  split at h
  · simp only [Option.some.injEq, Prod.mk.injEq] at h
    exact ⟨0, h.2.symm, h.1.symm, fun _ => rfl⟩
  · rename_i run hT
    split at h
    · simp at h
    · rename_i q hF
      simp only [Option.some.injEq, Prod.mk.injEq] at h
      exact ⟨q, h.2.symm, h.1.symm, fun hc => by rw [hT] at hc; cases hc⟩

/-! ### Claim theorems -/

/-- C1 (counterexample): the claim "the occupancy percentage ... is defined as 0
when fifo_depth = 0 and never raises a division error" is false on the code.
The log text "Total Writes: 5\nPeak Occupancy: 3/0" is parsed to a metrics
value with `total_writes = 5` and `fifo_depth = 0` that reaches the renderer,
and rendering its metrics block evaluates `peak_occupancy*100//fifo_depth`
with a zero divisor: `none` here models the raised `ZeroDivisionError`
(nothing is printed, in particular no 0). -/
theorem C1_counterexample :
    parseSyncText ("Total Writes: 5\nPeak Occupancy: 3/0".data) =
      some ([], ⟨5, 0, 3, 0, 0, 0⟩) ∧
    syncMetricsLines ⟨5, 0, 3, 0, 0, 0⟩ = none := by
  exact ⟨by decide, by decide⟩

/-- C1 (amended): the occupancy percentage printed in the metrics block equals
`floor(peak_occupancy*100/fifo_depth)` whenever `fifo_depth ≠ 0` (in
particular peak=12, depth=16 prints 75), and that value is the floor of the
true quotient; but when `fifo_depth = 0` and the block is rendered
(`total_writes > 0`) the renderer raises `ZeroDivisionError` (modelled by
`none`) instead of printing 0 — the computation is not guarded. -/
theorem C1_occupancy (m : PerformanceMetrics) :
    (m.fifo_depth ≠ 0 →
      occupancyPct m = some (m.peak_occupancy * 100 / m.fifo_depth)) ∧
    (∀ pct, m.fifo_depth ≠ 0 → occupancyPct m = some pct →
      pct * m.fifo_depth ≤ m.peak_occupancy * 100 ∧
      m.peak_occupancy * 100 < (pct + 1) * m.fifo_depth) ∧
    (m.fifo_depth = 0 → 0 < m.total_writes → syncMetricsLines m = none) ∧
    (m.fifo_depth ≠ 0 → 0 < m.total_writes →
      ∃ pct, occupancyPct m = some pct ∧
        ∃ ls, syncMetricsLines m = some ls ∧
          peakLine m.peak_occupancy m.fifo_depth pct ∈ ls) ∧
    occupancyPct ⟨0, 0, 12, 16, 0, 0⟩ = some 75 := by
  refine ⟨?_, ?_, ?_, ?_, by decide⟩
  · intro h; simp [occupancyPct, h]
  · intro pct h hp
    simp only [occupancyPct, if_neg h, Option.some.injEq] at hp
    subst hp
    exact natDivBounds _ _ (Nat.pos_of_ne_zero h)
  · intro h0 hw
    simp [syncMetricsLines, occupancyPct, h0, hw]
  · intro h hw
    have h1 : occupancyPct m = some (m.peak_occupancy * 100 / m.fifo_depth) := by
      simp [occupancyPct, h]
    refine ⟨_, h1, ?_⟩
    refine ⟨[[], metricsHeader, writesLine m.total_writes, readsLine m.total_reads,
        peakLine m.peak_occupancy m.fifo_depth (m.peak_occupancy * 100 / m.fifo_depth)]
        ++ (if 0 < m.throughput_mbps then [tputLine m.throughput_mbps] else []),
      ?_, ?_⟩
    · simp [syncMetricsLines, hw, h1]
    · exact List.mem_append_left _ (by simp)

/-- C1 (witness): the amended theorem applied at a concrete metrics value with
`fifo_depth = 16`. -/
theorem C1_occupancy_witness :
    occupancyPct ⟨5, 0, 12, 16, 0, 0⟩ = some (12 * 100 / 16) :=
  (C1_occupancy ⟨5, 0, 12, 16, 0, 0⟩).1 (by decide)

/-- C2: the overall status line is "NO SIMULATION DATA FOUND" exactly when
both test lists are empty, "ALL TESTS PASSED" exactly when both are non-empty
and every test in both passed, and "SOME TESTS FAILED" in every other case. -/
theorem C2_overall_status (s a : List TestResult) :
    (overallStatus s a = "NO SIMULATION DATA FOUND" ↔ s = [] ∧ a = []) ∧
    (overallStatus s a = "ALL TESTS PASSED" ↔
      s ≠ [] ∧ a ≠ [] ∧ (∀ t ∈ s, t.passed = true) ∧ (∀ t ∈ a, t.passed = true)) ∧
    ((s ≠ [] ∨ a ≠ []) →
      ¬(s ≠ [] ∧ a ≠ [] ∧ (∀ t ∈ s, t.passed = true) ∧ (∀ t ∈ a, t.passed = true)) →
      overallStatus s a = "SOME TESTS FAILED") := by
  have hs := countPassed_eq_length_iff s
  have ha := countPassed_eq_length_iff a
  unfold overallStatus
  split_ifs with h1 h2
  · refine ⟨?_, ?_, ?_⟩
    · constructor
      · intro h'
        exact absurd h' (by decide)
      · rintro ⟨rfl, rfl⟩
        rcases h1 with ⟨-, -, h, -⟩
        simp at h
    · constructor
      · intro _
        obtain ⟨hps, hpa, hls, hla⟩ := h1
        exact ⟨List.length_pos.mp hls, List.length_pos.mp hla, hs.mp hps, ha.mp hpa⟩
      · intro _; rfl
    · intro _ hnall
      exact absurd ⟨List.length_pos.mp h1.2.2.1, List.length_pos.mp h1.2.2.2,
        hs.mp h1.1, ha.mp h1.2.1⟩ hnall
  · obtain ⟨hs0, ha0⟩ := h2
    have hsnil : s = [] := List.length_eq_zero.mp hs0
    have hanil : a = [] := List.length_eq_zero.mp ha0
    refine ⟨?_, ?_, ?_⟩
    · simp [hsnil, hanil]
    · constructor
      · intro h'
        exact absurd h' (by decide)
      · rintro ⟨hne, -, -⟩
        exact absurd hsnil hne
    · intro hne _
      rcases hne with h | h
      · exact absurd hsnil h
      · exact absurd hanil h
  · refine ⟨?_, ?_, fun _ _ => rfl⟩
    · constructor
      · intro h'
        exact absurd h' (by decide)
      · rintro ⟨rfl, rfl⟩
        exact absurd ⟨rfl, rfl⟩ h2
    · constructor
      · intro h'
        exact absurd h' (by decide)
      · rintro ⟨hsne, hane, halls, halla⟩
        exact absurd ⟨hs.mpr halls, ha.mpr halla,
          List.length_pos.mpr hsne, List.length_pos.mpr hane⟩ h1

/-- C2 (witness): two empty datasets yield "NO SIMULATION DATA FOUND". -/
theorem C2_overall_status_witness :
    overallStatus [] [] = "NO SIMULATION DATA FOUND" :=
  (C2_overall_status [] []).1.mpr ⟨rfl, rfl⟩

/-- C5: the reported pass rate is `floor(countPassed*100/countTotal)` (it is the
floor of the true quotient: the unique value with
`rate*total ≤ passed*100 < (rate+1)*total`), is 0 when the total is 0 (the
guard in `generate_coverage_report`), and agrees with the per-dataset summary
percentage of `generate_report` on non-empty lists; 2 passed of 3 gives 66. -/
theorem C5_pass_rate :
    (∀ passed total : Nat, total = 0 → passRate passed total = 0) ∧
    (∀ passed total : Nat, 0 < total →
      passRate passed total * total ≤ passed * 100 ∧
      passed * 100 < (passRate passed total + 1) * total) ∧
    (∀ ts : List TestResult, ts ≠ [] →
      summaryPct ts = some (passRate (countPassed ts) ts.length)) ∧
    passRate 2 3 = 66 := by
  refine ⟨?_, ?_, ?_, by decide⟩
  · intro p t h
    simp [passRate, h]
  · intro p t ht
    simp only [passRate, if_pos ht]
    exact natDivBounds _ _ ht
  · intro ts h
    have hl : 0 < ts.length := List.length_pos.mpr h
    simp [summaryPct, passRate, h, hl, List.isEmpty_iff]

/-- C5 (witness): a three-test list with two passes reports 66%. -/
theorem C5_pass_rate_witness :
    summaryPct [⟨"a", true, ""⟩, ⟨"b", true, ""⟩, ⟨"c", false, ""⟩] = some 66 := by
  have h := C5_pass_rate.2.2.1 [⟨"a", true, ""⟩, ⟨"b", true, ""⟩, ⟨"c", false, ""⟩]
    (by decide)
  rw [h]
  decide

/-- C6: the percentage difference in the resource comparison is
`(a - b)/b*100` (floats are modelled exactly by `ℚ`; equivalently
`(a/b - 1)*100`) when the baseline `b` is non-zero, and is 0 when `b = 0`; in
particular baseline 0 and other 5 give 0, not an error. -/
theorem C6_percent_difference :
    (∀ other base : Nat, base ≠ 0 →
      percentDifference other base = (((other : ℚ) - (base : ℚ)) / (base : ℚ)) * 100 ∧
      percentDifference other base = (((other : ℚ) / (base : ℚ)) - 1) * 100) ∧
    (∀ other : Nat, percentDifference other 0 = 0) ∧
    percentDifference 5 0 = 0 := by
  refine ⟨?_, ?_, by norm_num [percentDifference]⟩
  · intro o b hb
    have hb' : 0 < b := Nat.pos_of_ne_zero hb
    have hbq : (b : ℚ) ≠ 0 := Nat.cast_ne_zero.mpr hb
    refine ⟨by simp [percentDifference, hb'], ?_⟩
    simp only [percentDifference, if_pos hb']
    field_simp
  · intro o
    simp [percentDifference]

/-- C6 (witness): the formula at baseline 4, other 5. -/
theorem C6_percent_difference_witness :
    percentDifference 5 4 = (((5 : ℚ) - (4 : ℚ)) / (4 : ℚ)) * 100 :=
  (C6_percent_difference.1 5 4 (by norm_num)).1

/-- C7 (counterexample): the claim says the parser "emits a warning to the
caller" for a missing input file, for both parsers; but
`plot_results.parse_metrics` on a missing file returns the default metrics
dictionary silently — the `false` component records that no warning is
printed (its missing-file branch is a bare `return metrics`). -/
theorem C7_counterexample :
    parse_metrics none = some (defaultPlotMetrics, false) := rfl

/-- C7 (amended): on a missing input file, `parse_sync_log` returns an empty
test sequence and default-valued metrics (all counters 0, `fifo_depth = 16`)
and prints a warning, never raising; `plot_results.parse_metrics` likewise
returns default-valued metrics and never raises, but emits no warning. -/
theorem C7_missing_file :
    parse_sync_log none = some ([], defaultMetrics, true) ∧
    parse_metrics none = some (defaultPlotMetrics, false) ∧
    defaultMetrics = ⟨0, 0, 0, 16, 0, 0⟩ ∧
    defaultPlotMetrics = ⟨0, 0, 0, 16, 0, 0, 0⟩ :=
  ⟨rfl, rfl, rfl, rfl⟩

/-- C3: resource classification is substring-based and not mutually exclusive:
each class total is the sum of counts over the cell types whose name contains
the class's substrings (`DFF`/`FF` for flip-flops, `MUX` for muxes, one of
`LUT`/`AND`/`OR`/`XOR`/`NOT`/`NAND`/`NOR` for logic cells), classes are
checked independently, and a name satisfying several rules (e.g. "XORFF") is
counted in every matching class, so the per-class sum can exceed
`total_cells`. -/
theorem C3_resource_classes (cells : List (String × Nat)) :
    (count_resources cells).flip_flops
        = sumCounts (cells.filter fun p => isFFCell p.1) ∧
    (count_resources cells).muxes
        = sumCounts (cells.filter fun p => isMuxCell p.1) ∧
    (count_resources cells).logic_cells
        = sumCounts (cells.filter fun p => isLogicCell p.1) ∧
    (count_resources cells).total_cells = sumCounts cells ∧
    (∀ c : String, isFFCell c = true ↔
      ((∃ l1 l2, c.data = l1 ++ ("DFF".data ++ l2))
        ∨ (∃ l1 l2, c.data = l1 ++ ("FF".data ++ l2)))) ∧
    (isFFCell "XORFF" = true ∧ isLogicCell "XORFF" = true) ∧
    ((count_resources [("XORFF", 1)]).total_cells
      < (count_resources [("XORFF", 1)]).flip_flops
        + (count_resources [("XORFF", 1)]).muxes
        + (count_resources [("XORFF", 1)]).logic_cells) := by
  obtain ⟨h1, h2, h3, h4⟩ := count_resources_foldl cells ⟨0, 0, 0, 0, 0⟩
  refine ⟨by simpa using h1, by simpa using h2, by simpa using h3, by simpa using h4,
    ?_, by decide, by decide⟩
  intro c
  simp [isFFCell, containsStr, isSubstr_iff]

/-- C3 (witness): the general classification at the concrete one-cell report
`[("XORFF", 3)]`, whose name matches both the flip-flop and the logic rule. -/
theorem C3_resource_classes_witness :
    (count_resources [("XORFF", 3)]).flip_flops
      = sumCounts ([("XORFF", 3)].filter fun p => isFFCell p.1) := by
  have h := (C3_resource_classes [("XORFF", 3)]).1
  exact h

/-- C4 (counterexample): the claim describes the fallback as comparing the
case-folded normalized catalog name; but the code does not case-fold
`test.name.replace('test_','').replace('_',' ')`.  For catalog name
"test_Reset" and execution result "my reset check" the case-folded normalized
name "reset" is a substring of the execution name, so the claim requires a
match, yet `check_test_execution` leaves the scenario unmatched
(`executed = false`). -/
theorem C4_counterexample :
    isSubstr (pyLower (normName "test_Reset")).data "my reset check".data = true ∧
    matchScenario (buildExecuted [("my reset check", true)])
        ⟨"test_Reset", "functional", "ZZZ", false, false⟩ =
      ⟨"test_Reset", "functional", "ZZZ", false, false⟩ :=
  ⟨by decide, by decide⟩

/-- C4 (amended): matching first tries exact case-folded equality between the
catalog description and an execution name (the dictionary key); failing that,
the fallback applies when the separator-normalized — but NOT case-folded —
catalog name is a substring of the case-folded execution name or vice versa,
and the first execution entry in dictionary iteration order satisfying it
wins (no ambiguity detection); scenarios with no match are returned
unchanged, keeping `executed = false` and `passed = false`. -/
theorem C4_matching (rs : List (String × Bool)) (t : TestScenario) :
    (∀ p, lookupKey (buildExecuted rs) (pyLower t.description) = some p →
      matchScenario (buildExecuted rs) t = { t with executed := true, passed := p }) ∧
    (lookupKey (buildExecuted rs) (pyLower t.description) = none →
      ∀ pre r suf, buildExecuted rs = pre ++ r :: suf →
        fallbackHit (normName t.name) r.1 = true →
        (∀ x ∈ pre, fallbackHit (normName t.name) x.1 = false) →
        matchScenario (buildExecuted rs) t = { t with executed := true, passed := r.2 }) ∧
    (lookupKey (buildExecuted rs) (pyLower t.description) = none →
      (∀ x ∈ buildExecuted rs, fallbackHit (normName t.name) x.1 = false) →
      matchScenario (buildExecuted rs) t = t) := by
  refine ⟨?_, ?_, ?_⟩
  · intro p hp
    simp [matchScenario, hp]
  · intro hnone pre r suf heq hr hpre
    have hf : (buildExecuted rs).find? (fun x => fallbackHit (normName t.name) x.1)
        = some r := by
      rw [heq]
      exact find?_pre_none _ _ _ _ hpre hr
    simp [matchScenario, hnone, hf]
  · intro hnone hall
    have hf : (buildExecuted rs).find? (fun x => fallbackHit (normName t.name) x.1)
        = none :=
      List.find?_eq_none.mpr fun x hx => by simp [hall x hx]
    simp [matchScenario, hnone, hf]

/-- C4 (witness): the spec's own example — catalog entry "Reset Behavior" with
execution names "Reset Behavior Check" and "Full Reset Behavior": the first
entry in iteration order wins the fallback. -/
theorem C4_matching_witness :
    matchScenario
        (buildExecuted [("Reset Behavior Check", true), ("Full Reset Behavior", false)])
        ⟨"test_reset_behavior", "functional", "X", false, false⟩ =
      ⟨"test_reset_behavior", "functional", "X", true, true⟩ := by
  have h := (C4_matching [("Reset Behavior Check", true), ("Full Reset Behavior", false)]
      ⟨"test_reset_behavior", "functional", "X", false, false⟩).2.1 (by decide)
      [] ("reset behavior check", true) [("full reset behavior", false)]
      (by decide) (by decide) (by simp)
  exact h

/-- C8 (counterexample): the claim "peak_occupancy ≤ fifo_depth whenever both
fields were matched in the text" is false on the code: the parser copies both
numbers of a `Peak Occupancy: a/b` match verbatim, so the text
"Peak Occupancy: 20/16" produces `peak_occupancy = 20 > 16 = fifo_depth`. -/
theorem C8_counterexample :
    searchPeak "Peak Occupancy: 20/16".data = some (20, 16) ∧
    parseSyncText "Peak Occupancy: 20/16".data = some ([], ⟨0, 0, 20, 16, 0, 0⟩) ∧
    (16 : Nat) < 20 :=
  ⟨by decide, by decide, by decide⟩

/-- C8 (amended): every metrics field with no matching line retains its
zero-value default (16 for `fifo_depth`), never a null value; but when the
peak-occupancy pattern matches, the parser stores the two captured numbers
verbatim with no validation, so `peak_occupancy ≤ fifo_depth` holds only when
the text itself satisfies it. -/
theorem C8_parser_fields (l : List Char) (ts : List TestResult)
    (m : PerformanceMetrics) (h : parseSyncText l = some (ts, m)) :
    (searchNat writesPat l = none → m.total_writes = 0) ∧
    (searchNat readsPat l = none → m.total_reads = 0) ∧
    (searchPeak l = none → m.peak_occupancy = 0 ∧ m.fifo_depth = 16) ∧
    (searchRate l = none → m.success_rate = 0) ∧
    (searchTput l = none → m.throughput_mbps = 0) ∧
    (∀ p d, searchPeak l = some (p, d) → m.peak_occupancy = p ∧ m.fifo_depth = d) := by
  obtain ⟨q, hm, -, hq0⟩ := parseSyncText_eq l ts m h
  subst hm
  refine ⟨?_, ?_, ?_, ?_, ?_, ?_⟩
  · intro hx; simp [mkMetrics, hx]
  · intro hx; simp [mkMetrics, hx]
  · intro hx; simp [mkMetrics, hx]
  · intro hx; simp [mkMetrics, hx]
  · intro hx
    rw [hq0 hx]
    simp [mkMetrics]
  · intro p d hx
    simp [mkMetrics, hx]

/-- C8 (witness): the amended theorem at the text "Total Reads: 7", where the
peak pattern does not match and the defaults are kept. -/
theorem C8_parser_fields_witness :
    (⟨0, 7, 0, 16, 0, 0⟩ : PerformanceMetrics).peak_occupancy = 0 ∧
    (⟨0, 7, 0, 16, 0, 0⟩ : PerformanceMetrics).fifo_depth = 16 :=
  (C8_parser_fields "Total Reads: 7".data [] ⟨0, 7, 0, 16, 0, 0⟩ (by decide)).2.2.1
    (by decide)

/-- C9 (counterexample): the claim is false on the code in both of its parts:
with `total_writes = 0` and `total_reads = 5` a counter is non-zero yet no
metrics block is rendered (the gate tests only `total_writes`), and at
identical metrics with `total_writes > 0` the sync block has 5 lines while
the async block has 4 — the async section does not have the same shape (its
Peak Occupancy line is missing). -/
theorem C9_counterexample :
    syncMetricsLines ⟨0, 5, 0, 16, 0, 0⟩ = some [] ∧
    asyncMetricsLines ⟨0, 5, 0, 16, 0, 0⟩ = [] ∧
    (⟨0, 5, 0, 16, 0, 0⟩ : PerformanceMetrics).total_reads ≠ 0 ∧
    (syncMetricsLines ⟨1, 2, 12, 16, 0, 0⟩).map List.length = some 5 ∧
    (asyncMetricsLines ⟨1, 2, 12, 16, 0, 0⟩).length = 4 :=
  ⟨by decide, by decide, by decide, by decide, by decide⟩

/-- C9 (amended): a dataset's performance-metrics block is rendered exactly
when `total_writes > 0` (no other counter triggers it); the async block never
contains a Peak Occupancy line, while the sync block (whenever rendered
without raising) contains one. -/
theorem C9_metrics_block (m : PerformanceMetrics) :
    (syncMetricsLines m = some [] ↔ m.total_writes = 0) ∧
    (asyncMetricsLines m = [] ↔ m.total_writes = 0) ∧
    (∀ l ∈ asyncMetricsLines m, "  Peak Occupancy:".data.isPrefixOf l = false) ∧
    (0 < m.total_writes → m.fifo_depth ≠ 0 →
      ∃ ls, syncMetricsLines m = some ls ∧
        ∃ l ∈ ls, "  Peak Occupancy:".data.isPrefixOf l = true) := by
  refine ⟨?_, ?_, ?_, ?_⟩
  · by_cases hw : 0 < m.total_writes
    · simp only [syncMetricsLines, if_pos hw]
      cases h : occupancyPct m
      · simp
        omega
      · simp
        omega
    · simp only [syncMetricsLines, if_neg hw]
      simp
      omega
  · by_cases hw : 0 < m.total_writes
    · simp only [asyncMetricsLines, if_pos hw]
      simp
      omega
    · simp only [asyncMetricsLines, if_neg hw]
      simp
      omega
  · intro l hl
    by_cases hw : 0 < m.total_writes
    · rw [asyncMetricsLines, if_pos hw] at hl
      rcases List.mem_append.mp hl with hl | hl
      · simp only [List.mem_cons, List.not_mem_nil, or_false] at hl
        rcases hl with rfl | rfl | rfl | rfl
        · decide
        · decide
        · rw [writesLine, isPrefixOf_append_of_le "  Peak Occupancy:".data
            "  Total Writes:    ".data _ (by decide)]
          decide
        · rw [readsLine, isPrefixOf_append_of_le "  Peak Occupancy:".data
            "  Total Reads:     ".data _ (by decide)]
          decide
      · by_cases ht : 0 < m.throughput_mbps
        · rw [if_pos ht] at hl
          rw [List.mem_singleton.mp hl]
          rw [tputLine]
          simp only [List.append_assoc]
          rw [isPrefixOf_append_of_le "  Peak Occupancy:".data
            "  Throughput:      ".data _ (by decide)]
          decide
        · rw [if_neg ht] at hl
          cases hl
    · rw [asyncMetricsLines, if_neg hw] at hl
      cases hl
  · intro hw hd
    have h1 : occupancyPct m = some (m.peak_occupancy * 100 / m.fifo_depth) := by
      simp [occupancyPct, hd]
    refine ⟨[[], metricsHeader, writesLine m.total_writes, readsLine m.total_reads,
        peakLine m.peak_occupancy m.fifo_depth (m.peak_occupancy * 100 / m.fifo_depth)]
        ++ (if 0 < m.throughput_mbps then [tputLine m.throughput_mbps] else []),
      by simp [syncMetricsLines, hw, h1], ?_⟩
    refine ⟨peakLine m.peak_occupancy m.fifo_depth (m.peak_occupancy * 100 / m.fifo_depth),
      List.mem_append_left _ (by simp), ?_⟩
    rw [peakLine]
    simp only [List.append_assoc]
    rw [isPrefixOf_append_of_le "  Peak Occupancy:".data
      "  Peak Occupancy:  ".data _ (by decide)]
    decide

/-- C9 (witness): the amended theorem at a concrete metrics value with
`total_writes = 1`: the rendered sync block contains a Peak Occupancy line. -/
theorem C9_metrics_block_witness :
    ∃ ls, syncMetricsLines ⟨1, 0, 0, 16, 0, 0⟩ = some ls ∧
      ∃ l ∈ ls, "  Peak Occupancy:".data.isPrefixOf l = true :=
  (C9_metrics_block ⟨1, 0, 0, 16, 0, 0⟩).2.2.2 (by decide) (by decide)

/-- C10: for every log text, the matching step of `check_test_execution`
collects execution results into a mapping keyed by the case-folded test name:
the keys are duplicate-free (duplicates are merged), a name occurring on
several result lines is mapped to the PASS/FAIL outcome of its last
occurrence in document order, and a catalog scenario exact-matched to that
key is assigned exactly that outcome. -/
theorem C10_duplicate_merge (text : List Char) (k : String) :
    ((buildExecuted (findTests text)).map Prod.fst).Nodup ∧
    (∀ pre r suf, findTests text = pre ++ r :: suf → (pyLower r.1) = k →
      (∀ x ∈ suf, (pyLower x.1) ≠ k) →
      lookupKey (buildExecuted (findTests text)) k = some r.2) ∧
    (∀ t : TestScenario, ∀ v : Bool, (pyLower t.description) = k →
      lookupKey (buildExecuted (findTests text)) k = some v →
      matchScenario (buildExecuted (findTests text)) t
        = { t with executed := true, passed := v }) := by
  refine ⟨build_keys_nodup _, ?_, ?_⟩
  · intro pre r suf heq hr hsuf
    have hb : lookupKey (buildExecuted (findTests text)) k
        = (findTests text).foldl
            (fun o r => if (pyLower r.1) = k then some r.2 else o) none :=
      build_lookup_aux (findTests text) [] k
    rw [hb, heq, List.foldl_append, List.foldl_cons, if_pos hr]
    exact foldl_last_none k suf _ hsuf
  · intro t v hd hl
    rw [← hd] at hl
    simp [matchScenario, hl]

/-- C10 (witness): in a log where "Reset" appears on two result lines (first
PASS, then FAIL), the mapping holds a single "reset" key bound to the last
outcome, FAIL. -/
theorem C10_duplicate_merge_witness :
    lookupKey
        (buildExecuted (findTests "[TEST 1] Reset... PASS\n[TEST 2] Reset... FAIL".data))
        "reset" = some false := by
  apply (C10_duplicate_merge "[TEST 1] Reset... PASS\n[TEST 2] Reset... FAIL".data
      "reset").2.1 [("Reset", true)] ("Reset", false) []
  · decide
  · decide
  · simp

end FifoScripts
